import Mathlib

/-!
Shallow embedding of the greyskull workout calculator
(`models/models.go`, `workout/calculator.go`, `program/greyskull_lp.go`).

Conventions of the embedding:
* Go `float64` weights and percentages are modelled as exact rationals (ℚ).
* Go `int` is modelled as ℤ; Go integer `%` is truncated division, `Int.tmod`.
* Go maps are modelled by their observable behaviour, as functions into
  `Option` (lookup with presence); writing a key is pointwise update.
* `uuid.UUID` values are modelled as `Nat`, with `uuid.Nil = 0`; the random
  v7 ids attached to freshly built sets, lifts and workouts, and the
  `time.Now()` timestamp, are nondeterministic identity metadata with no
  bearing on any observable field and are omitted from the records.
* Go functions returning `(T, error)` become `Except E T` with an inductive
  error type mirroring the distinct `fmt.Errorf` messages; a Go runtime
  panic (index out of range, `%` by zero) is modelled as `Option.none` in
  an outer `Option` layer where it can occur.
-/

namespace Greyskull

/-- Go `type LiftName string` (`models/models.go`). -/
abbrev LiftName := String

/-- The four `LiftName` constants of `models/models.go`. -/
def Squat : LiftName := "Squat"

def Deadlift : LiftName := "Deadlift"

def BenchPress : LiftName := "BenchPress"

def OverheadPress : LiftName := "OverheadPress"

/-- Go `type SetType string` with its three constants (`models/models.go`);
the three constants are distinct strings, so an inductive type is faithful. -/
inductive SetType where
  | WarmupSet
  | WorkingSet
  | AMRAPSet
deriving DecidableEq, Repr

export SetType (WarmupSet WorkingSet AMRAPSet)

/-- `models.SetTemplate`. The Go field `Type` is a Lean keyword, hence the
guillemets. -/
structure SetTemplate where
  Reps : Int
  WeightPercentage : ℚ
  «Type» : SetType
deriving DecidableEq, Repr

/-- `models.Set`, without the nondeterministic `ID` field. -/
structure Set where
  Weight : ℚ
  TargetReps : Int
  ActualReps : Int
  «Type» : SetType
  Order : Int
deriving DecidableEq, Repr

/-- `models.Lift`, without the nondeterministic `ID` field. -/
structure Lift where
  LiftName : LiftName
  Sets : List Set
deriving DecidableEq, Repr

/-- `models.Workout`, without the nondeterministic `ID` and `EnteredAt`. -/
structure Workout where
  UserProgramID : Nat
  Day : Int
  Exercises : List Lift
deriving DecidableEq, Repr

/-- `models.LiftTemplate`. -/
structure LiftTemplate where
  LiftName : LiftName
  WarmupSets : List SetTemplate
  WorkingSets : List SetTemplate
deriving DecidableEq, Repr

/-- `models.WorkoutTemplate`. -/
structure WorkoutTemplate where
  Day : Int
  Lifts : List LiftTemplate
deriving DecidableEq, Repr

/-- `models.ProgressionRules`; the Go map `IncreaseRules` is modelled as a
lookup function. -/
structure ProgressionRules where
  IncreaseRules : LiftName → Option ℚ
  DeloadPercentage : ℚ
  DoubleThreshold : Int

/-- `models.Program`. -/
structure Program where
  ID : Nat
  Name : String
  Version : String
  Workouts : List WorkoutTemplate
  ProgressionRules : ProgressionRules

/-- `models.UserProgram`. -/
structure UserProgram where
  ID : Nat
  UserID : Nat
  ProgramID : Nat
  StartingWeights : LiftName → Option ℚ
  CurrentWeights : LiftName → Option ℚ
  CurrentDay : Int

/-- `models.User`, keeping the fields `CalculateNextWorkout` reads. -/
structure User where
  ID : Nat
  Username : String
  CurrentProgram : Nat
  Programs : Nat → Option UserProgram

/-- `workout.RoundDown2_5`: `math.Floor(input/2.5) * 2.5`. -/
def RoundDown2_5 (input : ℚ) : ℚ :=
  ⌊input / (2.5 : ℚ)⌋ * (2.5 : ℚ)

/-- The body of the `for i, tpl := range setTemplates` loop of
`workout.CalculateWarmupSets`, with `i` made explicit: `setWeight` is 45
unless `tpl.WeightPercentage > 0.0`, in which case it is the rounded
percentage of the working weight; each emitted set carries the template
reps and type and `Order = i + 1`. -/
def warmupLoop (weight : ℚ) (i : Int) : List SetTemplate → List Set
  | [] => []
  | tpl :: rest =>
    { Weight := if tpl.WeightPercentage > 0 then RoundDown2_5 (weight * tpl.WeightPercentage) else 45
      TargetReps := tpl.Reps
      ActualReps := 0
      «Type» := tpl.«Type»
      Order := i + 1 } :: warmupLoop weight (i + 1) rest

/-- `workout.CalculateWarmupSets`. -/
def CalculateWarmupSets (weight : ℚ) (setTemplates : List SetTemplate) : List Set :=
  if weight ≤ 85 then [] else warmupLoop weight 0 setTemplates

/-- The body of the `for i, tpl := range setTemplates` loop of
`workout.CalculateWorkingSets`, applied after the single up-front rounding
of the weight. -/
def workingLoop (weight : ℚ) (i : Int) : List SetTemplate → List Set
  | [] => []
  | tpl :: rest =>
    { Weight := weight
      TargetReps := tpl.Reps
      ActualReps := 0
      «Type» := tpl.«Type»
      Order := i + 1 } :: workingLoop weight (i + 1) rest

/-- `workout.CalculateWorkingSets`: rounds the weight once, then emits one
set per template. -/
def CalculateWorkingSets (weight : ℚ) (setTemplates : List SetTemplate) : List Set :=
  workingLoop (RoundDown2_5 weight) 0 setTemplates

/-- `workout.GetWorkoutDay`. Go `%` on `int` is truncated division
(`Int.tmod`). -/
def GetWorkoutDay (currentDay totalDays : Int) : Int :=
  let mod := Int.tmod currentDay totalDays
  if mod = 0 then totalDays else mod

/-- `workout.GetAMRAPReps`: the `ActualReps` of the first set whose type is
`AMRAPSet`; `none` models the "no AMRAP set found for lift X" error. -/
def GetAMRAPReps (lift : Lift) : Option Int :=
  match lift.Sets.find? (fun s => s.«Type» = AMRAPSet) with
  | some s => some s.ActualReps
  | none => none

/-- `workout.CalculateNewWeight`. -/
def CalculateNewWeight (currentWeight : ℚ) (amrapReps : Int) (baseIncrement : ℚ)
    (rules : ProgressionRules) : ℚ :=
  let newWeight :=
    if amrapReps < 5 then
      currentWeight * rules.DeloadPercentage
    else if amrapReps ≥ rules.DoubleThreshold then
      currentWeight + baseIncrement * 2
    else
      currentWeight + baseIncrement
  RoundDown2_5 newWeight

/-- The distinct error messages of `workout.CalculateProgression`
(the `GetAMRAPReps` error is wrapped with "failed to get AMRAP reps"). -/
inductive ProgressionError where
  | noAMRAP (l : LiftName)
  | noRule (l : LiftName)
  | noWeight (l : LiftName)
deriving DecidableEq, Repr

/-- The `for _, lift := range workout.Exercises` loop of
`workout.CalculateProgression`: `acc` is the `newWeights` map being built;
all reads of current weights go to the `currentWeights` argument. -/
def progressionLoop (currentWeights : LiftName → Option ℚ) (rules : ProgressionRules) :
    List Lift → (LiftName → Option ℚ) → Except ProgressionError (LiftName → Option ℚ)
  | [], acc => .ok acc
  | lift :: rest, acc =>
    match GetAMRAPReps lift with
    | none => .error (.noAMRAP lift.LiftName)
    | some amrapReps =>
      match rules.IncreaseRules lift.LiftName with
      | none => .error (.noRule lift.LiftName)
      | some baseIncrement =>
        match currentWeights lift.LiftName with
        | none => .error (.noWeight lift.LiftName)
        | some currentWeight =>
          progressionLoop currentWeights rules rest
            (fun l =>
              if l = lift.LiftName then
                some (CalculateNewWeight currentWeight amrapReps baseIncrement rules)
              else acc l)

/-- `workout.CalculateProgression`: start `newWeights` as a copy of
`currentWeights` (the copy loop transfers every entry, so the copy is
extensionally `currentWeights` itself), then update it per exercised lift. -/
def CalculateProgression (workout : Workout) (currentWeights : LiftName → Option ℚ)
    (rules : ProgressionRules) : Except ProgressionError (LiftName → Option ℚ) :=
  progressionLoop currentWeights rules workout.Exercises currentWeights

/-- The distinct error messages of `workout.CalculateNextWorkout` other than
the set generators, which are total. -/
inductive WorkoutError where
  | noCurrentProgram
  | programNotFound
  | weightNotFound (l : LiftName)
deriving DecidableEq, Repr

/-- The `workingSets[i].Order = len(warmupSets) + i + 1` renumbering loop of
`workout.CalculateNextWorkout`, with the running base made explicit. -/
def renumberFrom (base : Int) : List Set → List Set
  | [] => []
  | s :: rest => { s with Order := base + 1 } :: renumberFrom (base + 1) rest

/-- The `for _, liftTemplate := range workoutTemplate.Lifts` loop of
`workout.CalculateNextWorkout`: look up the current weight, build warmup and
working sets, renumber the working sets after the warmups, and collect the
lifts in template order. -/
def nextWorkoutLoop (userProgram : UserProgram) :
    List LiftTemplate → Except WorkoutError (List Lift)
  | [] => .ok []
  | lt :: rest =>
    match userProgram.CurrentWeights lt.LiftName with
    | none => .error (.weightNotFound lt.LiftName)
    | some currentWeight =>
      let warmupSets := CalculateWarmupSets currentWeight lt.WarmupSets
      let workingSets := CalculateWorkingSets currentWeight lt.WorkingSets
      let allSets := warmupSets ++ renumberFrom (warmupSets.length : Int) workingSets
      match nextWorkoutLoop userProgram rest with
      | .error e => .error e
      | .ok lifts => .ok ({ LiftName := lt.LiftName, Sets := allSets } :: lifts)

/-- `workout.CalculateNextWorkout`. The outer `Option` models the Go runtime
panics that `CalculateNextWorkout` may hit before reaching any `return`:
`%` by zero in `GetWorkoutDay` when `program.Workouts` is empty, and slice
index out of range when `workoutDay - 1` falls outside the slice. -/
def CalculateNextWorkout (user : User) (program : Program) :
    Option (Except WorkoutError Workout) :=
  if user.CurrentProgram = 0 then some (.error .noCurrentProgram)
  else
    match user.Programs user.CurrentProgram with
    | none => some (.error .programNotFound)
    | some userProgram =>
      if program.Workouts.length = 0 then none
      else
        let workoutDay := GetWorkoutDay userProgram.CurrentDay (program.Workouts.length : Int)
        if workoutDay - 1 < 0 then none
        else
          match program.Workouts[(workoutDay - 1).toNat]? with
          | none => none
          | some workoutTemplate =>
            match nextWorkoutLoop userProgram workoutTemplate.Lifts with
            | .error e => some (.error e)
            | .ok exercises =>
              some (.ok { UserProgramID := userProgram.ID, Day := workoutDay, Exercises := exercises })

/-- The warmup protocol used for every lift of `program.GreyskullLP`
(`program/greyskull_lp.go`): empty bar, then 55%, 70%, 85%. -/
def greyskullWarmupTemplates : List SetTemplate :=
  [ { Reps := 5, WeightPercentage := 0, «Type» := WarmupSet },
    { Reps := 4, WeightPercentage := 0.55, «Type» := WarmupSet },
    { Reps := 3, WeightPercentage := 0.70, «Type» := WarmupSet },
    { Reps := 2, WeightPercentage := 0.85, «Type» := WarmupSet } ]

/-- The `ProgressionRules` of `program.GreyskullLP`: +2.5 upper body, +5
lower body, deload to 90%, double progression at 10+ reps. -/
def greyskullRules : ProgressionRules where
  IncreaseRules := fun l =>
    if l = OverheadPress then some 2.5
    else if l = BenchPress then some 2.5
    else if l = Squat then some 5
    else if l = Deadlift then some 5
    else none
  DeloadPercentage := 0.9
  DoubleThreshold := 10

/-- A working-set template like those of `program.GreyskullLP`. -/
def exTplWorking : SetTemplate := { Reps := 5, WeightPercentage := 1, «Type» := WorkingSet }

/-- A template with negative percentage and working kind, exercising the
branches of `CalculateWarmupSets` outside the GreyskullLP protocol. -/
def negTpl : SetTemplate := { Reps := 5, WeightPercentage := -(1 / 2 : ℚ), «Type» := WorkingSet }

/-- The empty-bar warmup template of the GreyskullLP protocol. -/
def barTpl : SetTemplate := { Reps := 5, WeightPercentage := 0, «Type» := WarmupSet }

/-- The set `CalculateWarmupSets` emits for `barTpl`. -/
def barSet : Set := { Weight := 45, TargetReps := 5, ActualReps := 0, «Type» := WarmupSet, Order := 1 }

/-- Reads the entry of one lift out of a `CalculateProgression` result:
`some (m l)` on success, `none` when the call returned an error. -/
def progLookup (r : Except ProgressionError (LiftName → Option ℚ)) (l : LiftName) :
    Option (Option ℚ) :=
  match r with
  | .ok m => some (m l)
  | .error _ => none

/-- An overhead-press lift whose AMRAP set recorded 8 actual reps. -/
def exLift : Lift :=
  { LiftName := OverheadPress
    Sets := [ { Weight := 95, TargetReps := 5, ActualReps := 5, «Type» := WorkingSet, Order := 1 },
              { Weight := 95, TargetReps := 5, ActualReps := 8, «Type» := AMRAPSet, Order := 2 } ] }

/-- A completed workout holding only `exLift`. -/
def exWorkout : Workout := { UserProgramID := 0, Day := 1, Exercises := [exLift] }

/-- Current weights: 95 for the overhead press, 125 for the bench press. -/
def exCW : LiftName → Option ℚ :=
  fun l => if l = OverheadPress then some 95 else if l = BenchPress then some 125 else none

/-- A squat lift whose AMRAP set recorded 3 actual reps. -/
def dupLift1 : Lift :=
  { LiftName := Squat
    Sets := [ { Weight := 100, TargetReps := 5, ActualReps := 3, «Type» := AMRAPSet, Order := 1 } ] }

/-- A second squat lift whose AMRAP set recorded 6 actual reps. -/
def dupLift2 : Lift :=
  { LiftName := Squat
    Sets := [ { Weight := 100, TargetReps := 5, ActualReps := 6, «Type» := AMRAPSet, Order := 1 } ] }

/-- A completed workout naming the squat twice. -/
def dupWorkout : Workout := { UserProgramID := 0, Day := 1, Exercises := [dupLift1, dupLift2] }

/-- Current weights: 100 for the squat only. -/
def dupCW : LiftName → Option ℚ := fun l => if l = Squat then some 100 else none

/-- The workout template `CalculateNextWorkout` resolves for the current
day: entry `workoutDay - 1` of the program (the default is irrelevant
whenever the index is in range). -/
def resolvedTemplate (program : Program) (up : UserProgram) : WorkoutTemplate :=
  (program.Workouts[(GetWorkoutDay up.CurrentDay (program.Workouts.length : Int) - 1).toNat]?).getD
    ⟨0, []⟩

/-- A user program on day 1 tracking only the overhead press at 95. -/
def exUserProgram : UserProgram :=
  { ID := 7, UserID := 1, ProgramID := 1
    StartingWeights := fun _ => none
    CurrentWeights := fun l => if l = OverheadPress then some 95 else none
    CurrentDay := 1 }

/-- A one-day program template: overhead press with the GreyskullLP warmup
protocol and one working set. -/
def exProgramTemplate : WorkoutTemplate :=
  { Day := 1
    Lifts := [ { LiftName := OverheadPress
                 WarmupSets := greyskullWarmupTemplates
                 WorkingSets := [exTplWorking] } ] }

/-- A one-day program wrapping `exProgramTemplate`. -/
def exProgram : Program :=
  { ID := 1, Name := "OG Greyskull LP", Version := "1.0.0"
    Workouts := [exProgramTemplate], ProgressionRules := greyskullRules }

/-- A user whose current program reference resolves to `exUserProgram`. -/
def exUser : User :=
  { ID := 1, Username := "alice", CurrentProgram := 1
    Programs := fun r => if r = 1 then some exUserProgram else none }

/-! ### Heap-instrumented model of `CalculateProgression`

To state the frame property (the `currentWeights` argument is never written
and the result is a freshly allocated map), the same Go function body is
embedded once more with the map store explicit: map values live in a heap
indexed by references, `make(...)` allocates the next fresh reference, and
every Go map write names the reference it mutates. -/

/-- A store of Go map values: `maps r` is the current value of the map at
reference `r`; references below `next` are allocated. -/
structure Heap where
  maps : Nat → LiftName → Option ℚ
  next : Nat

/-- Writing `maps[r][l] = w`: pointwise update of the one map at `r`. -/
def heapWrite (h : Heap) (r : Nat) (l : LiftName) (w : ℚ) : Heap :=
  { h with
    maps := fun r' =>
      if r' = r then (fun l' => if l' = l then some w else h.maps r l') else h.maps r' }

/-- The exercise loop of `workout.CalculateProgression` over the explicit
heap: reads go to the map at `cwRef` (the `currentWeights` argument), writes
go to the map at `newRef` (the freshly allocated `newWeights`). -/
def progressionHeapLoop (cwRef newRef : Nat) (rules : ProgressionRules) :
    List Lift → Heap → Heap × Except ProgressionError Unit
  | [], h => (h, .ok ())
  | lift :: rest, h =>
    match GetAMRAPReps lift with
    | none => (h, .error (.noAMRAP lift.LiftName))
    | some amrapReps =>
      match rules.IncreaseRules lift.LiftName with
      | none => (h, .error (.noRule lift.LiftName))
      | some baseIncrement =>
        match h.maps cwRef lift.LiftName with
        | none => (h, .error (.noWeight lift.LiftName))
        | some currentWeight =>
          progressionHeapLoop cwRef newRef rules rest
            (heapWrite h newRef lift.LiftName
              (CalculateNewWeight currentWeight amrapReps baseIncrement rules))

/-- `workout.CalculateProgression` over the explicit heap: allocate
`newWeights` fresh at `h.next`, copy every entry of the map at `cwRef` into
it, run the exercise loop, and on success return the new reference; on error
Go returns `nil` for the map, so no reference is returned. -/
def CalculateProgressionHeap (workout : Workout) (cwRef : Nat) (rules : ProgressionRules)
    (h : Heap) : Heap × Except ProgressionError Nat :=
  let newRef := h.next
  let h1 : Heap :=
    { maps := fun r => if r = newRef then h.maps cwRef else h.maps r, next := h.next + 1 }
  match progressionHeapLoop cwRef newRef rules workout.Exercises h1 with
  | (h2, Except.ok _) => (h2, .ok newRef)
  | (h2, Except.error e) => (h2, .error e)

/-- An example heap holding one allocated (empty) weights map at 0. -/
def exHeap : Heap := { maps := fun _ => fun _ => none, next := 1 }

/-! ### Helper lemmas about the rounding primitive -/

lemma roundDown_int_mul (k : ℤ) : RoundDown2_5 ((k : ℚ) * 2.5) = (k : ℚ) * 2.5 := by
  unfold RoundDown2_5
  rw [mul_div_cancel_right₀ _ (by norm_num : (2.5 : ℚ) ≠ 0), Int.floor_intCast]

lemma roundDown_le (x : ℚ) : RoundDown2_5 x ≤ x := by
  unfold RoundDown2_5
  calc (⌊x / 2.5⌋ : ℚ) * 2.5 ≤ x / 2.5 * 2.5 :=
        mul_le_mul_of_nonneg_right (Int.floor_le _) (by norm_num)
    _ = x := div_mul_cancel₀ x (by norm_num)

lemma roundDown_multiple (x : ℚ) : ∃ k : ℤ, RoundDown2_5 x = (k : ℚ) * 2.5 :=
  ⟨⌊x / 2.5⌋, rfl⟩

lemma roundDown_idem (x : ℚ) : RoundDown2_5 (RoundDown2_5 x) = RoundDown2_5 x :=
  roundDown_int_mul ⌊x / 2.5⌋

/-! ### Helper lemmas about the set-generation loops -/

lemma warmupLoop_length (w : ℚ) :
    ∀ (tpls : List SetTemplate) (i : Int), (warmupLoop w i tpls).length = tpls.length := by
  intro tpls
  induction tpls with
  | nil => intro i; rfl
  | cons tpl rest ih => intro i; simp [warmupLoop, ih]

lemma warmupLoop_get? (w : ℚ) :
    ∀ (tpls : List SetTemplate) (i : Int) (j : Nat) (tpl : SetTemplate),
      tpls[j]? = some tpl →
      (warmupLoop w i tpls)[j]? =
        some { Weight := if tpl.WeightPercentage > 0 then
                 RoundDown2_5 (w * tpl.WeightPercentage) else 45
               TargetReps := tpl.Reps
               ActualReps := 0
               «Type» := tpl.«Type»
               Order := i + (j : Int) + 1 } := by
  intro tpls
  induction tpls with
  | nil => intro i j tpl h; simp at h
  | cons hd rest ih =>
    intro i j tpl h
    cases j with
    | zero =>
      simp only [List.getElem?_cons_zero, Option.some.injEq] at h
      subst h
      simp [warmupLoop]
    | succ j =>
      simp only [List.getElem?_cons_succ] at h
      have harith : i + 1 + (j : Int) + 1 = i + ((j + 1 : Nat) : Int) + 1 := by
        push_cast
        ring
      simp only [warmupLoop, List.getElem?_cons_succ]
      rw [ih (i + 1) j tpl h, harith]

lemma mem_warmupLoop_weight (w : ℚ) :
    ∀ (tpls : List SetTemplate) (i : Int) (s : Set), s ∈ warmupLoop w i tpls →
      s.Weight = 45 ∨ ∃ x, s.Weight = RoundDown2_5 x := by
  intro tpls
  induction tpls with
  | nil => intro i s h; simp [warmupLoop] at h
  | cons hd rest ih =>
    intro i s h
    simp only [warmupLoop, List.mem_cons] at h
    rcases h with h | h
    · subst h
      by_cases hp : hd.WeightPercentage > 0
      · exact Or.inr ⟨w * hd.WeightPercentage, by simp [hp]⟩
      · exact Or.inl (by simp [hp])
    · exact ih (i + 1) s h

lemma workingLoop_length (w : ℚ) :
    ∀ (tpls : List SetTemplate) (i : Int), (workingLoop w i tpls).length = tpls.length := by
  intro tpls
  induction tpls with
  | nil => intro i; rfl
  | cons tpl rest ih => intro i; simp [workingLoop, ih]

lemma workingLoop_get? (w : ℚ) :
    ∀ (tpls : List SetTemplate) (i : Int) (j : Nat) (tpl : SetTemplate),
      tpls[j]? = some tpl →
      (workingLoop w i tpls)[j]? =
        some { Weight := w
               TargetReps := tpl.Reps
               ActualReps := 0
               «Type» := tpl.«Type»
               Order := i + (j : Int) + 1 } := by
  intro tpls
  induction tpls with
  | nil => intro i j tpl h; simp at h
  | cons hd rest ih =>
    intro i j tpl h
    cases j with
    | zero =>
      simp only [List.getElem?_cons_zero, Option.some.injEq] at h
      subst h
      simp [workingLoop]
    | succ j =>
      simp only [List.getElem?_cons_succ] at h
      have harith : i + 1 + (j : Int) + 1 = i + ((j + 1 : Nat) : Int) + 1 := by
        push_cast
        ring
      simp only [workingLoop, List.getElem?_cons_succ]
      rw [ih (i + 1) j tpl h, harith]

lemma mem_workingLoop_weight (w : ℚ) :
    ∀ (tpls : List SetTemplate) (i : Int) (s : Set), s ∈ workingLoop w i tpls →
      s.Weight = w := by
  intro tpls
  induction tpls with
  | nil => intro i s h; simp [workingLoop] at h
  | cons hd rest ih =>
    intro i s h
    simp only [workingLoop, List.mem_cons] at h
    rcases h with h | h
    · subst h; rfl
    · exact ih (i + 1) s h

/-! ### Helper lemmas about day cycling -/

lemma getWorkoutDay_eq (c t : Int) (hc : 0 < c) (ht : 0 < t) :
    GetWorkoutDay c t = (c - 1) % t + 1 := by
  unfold GetWorkoutDay
  rw [Int.tmod_eq_emod hc.le ht.le]
  rcases eq_or_lt_of_le (by omega : (1 : ℤ) ≤ t) with h1 | h1
  · simp [← h1, Int.emod_one]
  · have hr0 : 0 ≤ c % t := Int.emod_nonneg c (by omega)
    have hrt : c % t < t := Int.emod_lt_of_pos c ht
    have key : (c - 1) % t = (c % t - 1) % t := by
      have hdvd : c - 1 = c % t - 1 + t * (c / t) := by
        have := Int.ediv_add_emod c t
        ring_nf
        omega
      rw [hdvd, Int.add_mul_emod_self_left]
    by_cases h0 : c % t = 0
    · have hm1 : (-1 : ℤ) % t = t - 1 := by
        have h2 : ((-1 : ℤ) + t * 1) % t = (-1 : ℤ) % t := Int.add_mul_emod_self_left (-1) t 1
        have h3 : ((-1 : ℤ) + t * 1) = t - 1 := by ring
        rw [h3] at h2
        rw [← h2]
        exact Int.emod_eq_of_lt (by omega) (by omega)
      have h01 : (0 - 1 : ℤ) = -1 := by ring
      rw [if_pos h0, key, h0, h01, hm1]
      omega
    · rw [if_neg h0, key]
      have h4 : (c % t - 1) % t = c % t - 1 := Int.emod_eq_of_lt (by omega) (by omega)
      omega

/-! ### Helper lemmas about the progression loop -/

lemma progressionLoop_ok_iff (cw : LiftName → Option ℚ) (rules : ProgressionRules) :
    ∀ (lifts : List Lift) (acc : LiftName → Option ℚ),
      (∃ m, progressionLoop cw rules lifts acc = .ok m) ↔
        ∀ lift ∈ lifts, (GetAMRAPReps lift).isSome = true ∧
          (rules.IncreaseRules lift.LiftName).isSome = true ∧
          (cw lift.LiftName).isSome = true := by
  intro lifts
  induction lifts with
  | nil =>
    intro acc
    simp [progressionLoop]
  | cons lift rest ih =>
    intro acc
    cases hA : GetAMRAPReps lift with
    | none =>
      simp [progressionLoop, hA]
    | some reps =>
      cases hR : rules.IncreaseRules lift.LiftName with
      | none =>
        simp [progressionLoop, hA, hR]
      | some inc =>
        cases hW : cw lift.LiftName with
        | none =>
          simp [progressionLoop, hA, hR, hW]
        | some w0 =>
          simp only [progressionLoop, hA, hR, hW]
          rw [ih]
          constructor
          · intro h
            intro lift2 h2
            rcases List.mem_cons.mp h2 with h2 | h2
            · subst h2
              exact ⟨by simp [hA], by simp [hR], by simp [hW]⟩
            · exact h lift2 h2
          · intro h lift2 h2
            exact h lift2 (List.mem_cons_of_mem _ h2)

lemma progressionLoop_not_mem (cw : LiftName → Option ℚ) (rules : ProgressionRules) :
    ∀ (lifts : List Lift) (acc : LiftName → Option ℚ) (m : LiftName → Option ℚ)
      (l : LiftName), l ∉ lifts.map Lift.LiftName →
      progressionLoop cw rules lifts acc = .ok m → m l = acc l := by
  intro lifts
  induction lifts with
  | nil =>
    intro acc m l _ h
    simp only [progressionLoop, Except.ok.injEq] at h
    rw [← h]
  | cons lift rest ih =>
    intro acc m l hl h
    simp only [List.map_cons, List.mem_cons, not_or] at hl
    simp only [progressionLoop] at h
    cases hA : GetAMRAPReps lift with
    | none => simp [hA] at h
    | some reps =>
      cases hR : rules.IncreaseRules lift.LiftName with
      | none => simp [hA, hR] at h
      | some inc =>
        cases hW : cw lift.LiftName with
        | none => simp [hA, hR, hW] at h
        | some w0 =>
          simp only [hA, hR, hW] at h
          have := ih _ m l (by simpa using hl.2) h
          rw [this, if_neg hl.1]

lemma progressionLoop_mem (cw : LiftName → Option ℚ) (rules : ProgressionRules) :
    ∀ (lifts : List Lift) (acc : LiftName → Option ℚ) (m : LiftName → Option ℚ),
      (lifts.map Lift.LiftName).Nodup →
      progressionLoop cw rules lifts acc = .ok m →
      ∀ lift ∈ lifts, ∃ reps inc w0, GetAMRAPReps lift = some reps ∧
        rules.IncreaseRules lift.LiftName = some inc ∧ cw lift.LiftName = some w0 ∧
        m lift.LiftName = some (CalculateNewWeight w0 reps inc rules) := by
  intro lifts
  induction lifts with
  | nil =>
    intro acc m _ _ lift h
    simp at h
  | cons hd rest ih =>
    intro acc m hnd h lift hmem
    simp only [List.map_cons, List.nodup_cons] at hnd
    simp only [progressionLoop] at h
    cases hA : GetAMRAPReps hd with
    | none => simp [hA] at h
    | some reps =>
      cases hR : rules.IncreaseRules hd.LiftName with
      | none => simp [hA, hR] at h
      | some inc =>
        cases hW : cw hd.LiftName with
        | none => simp [hA, hR, hW] at h
        | some w0 =>
          simp only [hA, hR, hW] at h
          rcases List.mem_cons.mp hmem with hmem | hmem
          · subst hmem
            refine ⟨reps, inc, w0, hA, hR, hW, ?_⟩
            have := progressionLoop_not_mem cw rules rest _ m lift.LiftName hnd.1 h
            rw [this, if_pos rfl]
          · exact ih _ m hnd.2 h lift hmem

lemma progressionLoop_error (cw : LiftName → Option ℚ) (rules : ProgressionRules) :
    ∀ (lifts : List Lift) (acc : LiftName → Option ℚ) (e : ProgressionError),
      progressionLoop cw rules lifts acc = .error e →
      (∀ l, e = .noAMRAP l →
        ∃ lift ∈ lifts, lift.LiftName = l ∧ GetAMRAPReps lift = none) ∧
      (∀ l, e = .noRule l →
        ∃ lift ∈ lifts, lift.LiftName = l ∧ rules.IncreaseRules l = none) ∧
      (∀ l, e = .noWeight l →
        ∃ lift ∈ lifts, lift.LiftName = l ∧ cw l = none) := by
  intro lifts
  induction lifts with
  | nil =>
    intro acc e h
    simp [progressionLoop] at h
  | cons hd rest ih =>
    intro acc e h
    simp only [progressionLoop] at h
    cases hA : GetAMRAPReps hd with
    | none =>
      simp only [hA, Except.error.injEq] at h
      refine ⟨fun l hl => ?_, fun l hl => ?_, fun l hl => ?_⟩ <;>
        rw [← h] at hl <;> cases hl
      exact ⟨hd, List.mem_cons_self _ _, rfl, hA⟩
    | some reps =>
      cases hR : rules.IncreaseRules hd.LiftName with
      | none =>
        simp only [hA, hR, Except.error.injEq] at h
        refine ⟨fun l hl => ?_, fun l hl => ?_, fun l hl => ?_⟩ <;>
          rw [← h] at hl <;> cases hl
        exact ⟨hd, List.mem_cons_self _ _, rfl, hR⟩
      | some inc =>
        cases hW : cw hd.LiftName with
        | none =>
          simp only [hA, hR, hW, Except.error.injEq] at h
          refine ⟨fun l hl => ?_, fun l hl => ?_, fun l hl => ?_⟩ <;>
            rw [← h] at hl <;> cases hl
          exact ⟨hd, List.mem_cons_self _ _, rfl, hW⟩
        | some w0 =>
          simp only [hA, hR, hW] at h
          have := ih _ e h
          refine ⟨fun l hl => ?_, fun l hl => ?_, fun l hl => ?_⟩
          · rcases this.1 l hl with ⟨lift, hm, h1, h2⟩
            exact ⟨lift, List.mem_cons_of_mem _ hm, h1, h2⟩
          · rcases this.2.1 l hl with ⟨lift, hm, h1, h2⟩
            exact ⟨lift, List.mem_cons_of_mem _ hm, h1, h2⟩
          · rcases this.2.2 l hl with ⟨lift, hm, h1, h2⟩
            exact ⟨lift, List.mem_cons_of_mem _ hm, h1, h2⟩

/-! ### Helper lemmas about next-workout construction -/

lemma getWorkoutDay_bounds (c t : Int) (hc : 0 < c) (ht : 0 < t) :
    1 ≤ GetWorkoutDay c t ∧ GetWorkoutDay c t ≤ t := by
  rw [getWorkoutDay_eq c t hc ht]
  have h0 : 0 ≤ (c - 1) % t := Int.emod_nonneg _ (by omega)
  have h1 : (c - 1) % t < t := Int.emod_lt_of_pos _ ht
  omega

lemma warmupLoop_order (w : ℚ) :
    ∀ (tpls : List SetTemplate) (i : Int) (j : Nat) (s : Set),
      (warmupLoop w i tpls)[j]? = some s → s.Order = i + (j : Int) + 1 := by
  intro tpls
  induction tpls with
  | nil => intro i j s h; simp [warmupLoop] at h
  | cons hd rest ih =>
    intro i j s h
    cases j with
    | zero =>
      simp only [warmupLoop, List.getElem?_cons_zero, Option.some.injEq] at h
      rw [← h]
      simp
    | succ j =>
      simp only [warmupLoop, List.getElem?_cons_succ] at h
      rw [ih (i + 1) j s h]
      push_cast
      ring

lemma renumberFrom_length :
    ∀ (sets : List Set) (base : Int), (renumberFrom base sets).length = sets.length := by
  intro sets
  induction sets with
  | nil => intro base; rfl
  | cons s rest ih => intro base; simp [renumberFrom, ih]

lemma renumberFrom_order :
    ∀ (sets : List Set) (base : Int) (j : Nat) (s : Set),
      (renumberFrom base sets)[j]? = some s → s.Order = base + (j : Int) + 1 := by
  intro sets
  induction sets with
  | nil => intro base j s h; simp [renumberFrom] at h
  | cons hd rest ih =>
    intro base j s h
    cases j with
    | zero =>
      simp only [renumberFrom, List.getElem?_cons_zero, Option.some.injEq] at h
      rw [← h]
      simp
    | succ j =>
      simp only [renumberFrom, List.getElem?_cons_succ] at h
      rw [ih (base + 1) j s h]
      push_cast
      ring

lemma combined_order (weight : ℚ) (wts wks : List SetTemplate) (j : Nat) (s : Set)
    (h : (CalculateWarmupSets weight wts ++
        renumberFrom ((CalculateWarmupSets weight wts).length : Int)
          (CalculateWorkingSets weight wks))[j]? = some s) :
    s.Order = (j : Int) + 1 := by
  rw [List.getElem?_append] at h
  by_cases hj : j < (CalculateWarmupSets weight wts).length
  · rw [if_pos hj] at h
    unfold CalculateWarmupSets at h hj
    by_cases hw : weight ≤ 85
    · rw [if_pos hw] at h
      simp at h
    · rw [if_neg hw] at h hj
      have := warmupLoop_order weight wts 0 j s h
      rw [this]
      ring
  · rw [if_neg hj] at h
    push_neg at hj
    have := renumberFrom_order _ _ _ _ h
    rw [this]
    omega

lemma nextWorkoutLoop_ok_iff (up : UserProgram) :
    ∀ (lts : List LiftTemplate),
      (∃ ls, nextWorkoutLoop up lts = .ok ls) ↔
        ∀ lt ∈ lts, (up.CurrentWeights lt.LiftName).isSome = true := by
  intro lts
  induction lts with
  | nil => simp [nextWorkoutLoop]
  | cons lt rest ih =>
    cases hW : up.CurrentWeights lt.LiftName with
    | none =>
      simp only [nextWorkoutLoop, hW, List.forall_mem_cons]
      constructor
      · rintro ⟨ls, hls⟩
        simp at hls
      · rintro ⟨h1, _⟩
        simp at h1
    | some cwt =>
      simp only [nextWorkoutLoop, hW, List.forall_mem_cons]
      cases hrest : nextWorkoutLoop up rest with
      | error e =>
        constructor
        · rintro ⟨ls, hls⟩
          simp at hls
        · rintro ⟨_, h2⟩
          rcases ih.mpr h2 with ⟨ls, hls⟩
          rw [hrest] at hls
          simp at hls
      | ok ls =>
        constructor
        · intro _
          exact ⟨by simp [hW], ih.mp ⟨ls, hrest⟩⟩
        · intro _
          exact ⟨_, rfl⟩

lemma nextWorkoutLoop_error (up : UserProgram) :
    ∀ (lts : List LiftTemplate) (e : WorkoutError),
      nextWorkoutLoop up lts = .error e →
      ∃ l, e = .weightNotFound l ∧
        ∃ lt ∈ lts, lt.LiftName = l ∧ up.CurrentWeights l = none := by
  intro lts
  induction lts with
  | nil => intro e h; simp [nextWorkoutLoop] at h
  | cons lt rest ih =>
    intro e h
    simp only [nextWorkoutLoop] at h
    cases hW : up.CurrentWeights lt.LiftName with
    | none =>
      rw [hW] at h
      simp only [Except.error.injEq] at h
      exact ⟨lt.LiftName, h.symm, lt, List.mem_cons_self _ _, rfl, hW⟩
    | some cwt =>
      rw [hW] at h
      cases hrest : nextWorkoutLoop up rest with
      | error e2 =>
        rw [hrest] at h
        simp only [Except.error.injEq] at h
        rcases ih e2 hrest with ⟨l, h1, lt2, h2, h3, h4⟩
        exact ⟨l, h ▸ h1, lt2, List.mem_cons_of_mem _ h2, h3, h4⟩
      | ok ls =>
        rw [hrest] at h
        simp at h

lemma nextWorkoutLoop_ok_mem (up : UserProgram) :
    ∀ (lts : List LiftTemplate) (ls : List Lift),
      nextWorkoutLoop up lts = .ok ls →
      ∀ lift ∈ ls, ∃ lt ∈ lts, ∃ cwt,
        up.CurrentWeights lt.LiftName = some cwt ∧ lift.LiftName = lt.LiftName ∧
        lift.Sets = CalculateWarmupSets cwt lt.WarmupSets ++
          renumberFrom ((CalculateWarmupSets cwt lt.WarmupSets).length : Int)
            (CalculateWorkingSets cwt lt.WorkingSets) := by
  intro lts
  induction lts with
  | nil =>
    intro ls h lift hmem
    simp only [nextWorkoutLoop, Except.ok.injEq] at h
    rw [← h] at hmem
    simp at hmem
  | cons lt rest ih =>
    intro ls h lift hmem
    simp only [nextWorkoutLoop] at h
    cases hW : up.CurrentWeights lt.LiftName with
    | none =>
      rw [hW] at h
      simp at h
    | some cwt =>
      rw [hW] at h
      cases hrest : nextWorkoutLoop up rest with
      | error e =>
        rw [hrest] at h
        simp at h
      | ok ls2 =>
        rw [hrest] at h
        simp only [Except.ok.injEq] at h
        rw [← h] at hmem
        rcases List.mem_cons.mp hmem with hmem | hmem
        · subst hmem
          exact ⟨lt, List.mem_cons_self _ _, cwt, hW, rfl, rfl⟩
        · rcases ih ls2 hrest lift hmem with ⟨lt2, h1, cwt2, h2, h3, h4⟩
          exact ⟨lt2, List.mem_cons_of_mem _ h1, cwt2, h2, h3, h4⟩

lemma calculateNextWorkout_eq (user : User) (program : Program) (up : UserProgram)
    (h0 : ¬ user.CurrentProgram = 0)
    (hup : user.Programs user.CurrentProgram = some up)
    (hc : 0 < up.CurrentDay) (hlen : program.Workouts ≠ []) :
    ∃ tmpl,
      program.Workouts[(GetWorkoutDay up.CurrentDay (program.Workouts.length : Int) -
        1).toNat]? = some tmpl ∧
      resolvedTemplate program up = tmpl ∧
      CalculateNextWorkout user program =
        some (match nextWorkoutLoop up tmpl.Lifts with
          | .error e => .error e
          | .ok exercises =>
            .ok { UserProgramID := up.ID
                  Day := GetWorkoutDay up.CurrentDay (program.Workouts.length : Int)
                  Exercises := exercises }) := by
  have hlen0 : program.Workouts.length ≠ 0 := fun hh => hlen (List.length_eq_zero.mp hh)
  have ht : 0 < (program.Workouts.length : Int) := by
    omega
  obtain ⟨hb1, hb2⟩ :=
    getWorkoutDay_bounds up.CurrentDay (program.Workouts.length : Int) hc ht
  have hneg : ¬ (GetWorkoutDay up.CurrentDay (program.Workouts.length : Int) - 1 < 0) := by
    omega
  have hidx : (GetWorkoutDay up.CurrentDay (program.Workouts.length : Int) - 1).toNat <
      program.Workouts.length := by
    omega
  have hsome : program.Workouts[(GetWorkoutDay up.CurrentDay
      (program.Workouts.length : Int) - 1).toNat]? =
      some (program.Workouts[(GetWorkoutDay up.CurrentDay
        (program.Workouts.length : Int) - 1).toNat]) :=
    List.getElem?_eq_getElem hidx
  refine ⟨_, hsome, ?_, ?_⟩
  · unfold resolvedTemplate
    rw [hsome]
    rfl
  · unfold CalculateNextWorkout
    rw [if_neg h0, hup]
    simp only [if_neg hlen0, if_neg hneg, hsome]
    split <;> rfl

lemma progressionHeapLoop_frame (cwRef newRef : Nat) (rules : ProgressionRules) :
    ∀ (lifts : List Lift) (h : Heap) (r : Nat), r ≠ newRef →
      ((progressionHeapLoop cwRef newRef rules lifts h).1).maps r = h.maps r := by
  intro lifts
  induction lifts with
  | nil => intro h r _; rfl
  | cons lift rest ih =>
    intro h r hr
    simp only [progressionHeapLoop]
    cases hA : GetAMRAPReps lift with
    | none => rfl
    | some reps =>
      cases hR : rules.IncreaseRules lift.LiftName with
      | none => rfl
      | some inc =>
        cases hW : h.maps cwRef lift.LiftName with
        | none => rfl
        | some w0 =>
          rw [ih _ r hr]
          simp [heapWrite, hr]

/-! ### Claim theorems -/

/-- C7: RoundDown2_5 equals the floor of the input over 2.5 scaled back by
2.5; for every nonnegative input it is idempotent, never exceeds its
argument, and returns every exact multiple of 2.5 unchanged. -/
theorem roundDown_spec (x : ℚ) :
    RoundDown2_5 x = ⌊x / 2.5⌋ * 2.5 ∧
    (0 ≤ x →
      RoundDown2_5 (RoundDown2_5 x) = RoundDown2_5 x ∧
      RoundDown2_5 x ≤ x ∧
      ∀ k : ℤ, x = (k : ℚ) * 2.5 → RoundDown2_5 x = x) := by
  refine ⟨rfl, fun _ => ⟨roundDown_idem x, roundDown_le x, ?_⟩⟩
  rintro k rfl
  exact roundDown_int_mul k

/-- Witness for C7 at the concrete input 6. -/
theorem roundDown_spec_witness :
    (0 : ℚ) ≤ 6 ∧
    (RoundDown2_5 (RoundDown2_5 6) = RoundDown2_5 6 ∧ RoundDown2_5 6 ≤ 6 ∧
      ∀ k : ℤ, (6 : ℚ) = (k : ℚ) * 2.5 → RoundDown2_5 6 = 6) :=
  ⟨by norm_num, (roundDown_spec 6).2 (by norm_num)⟩

/-- C3: for every working weight at most 85, the warmup generator returns
the empty sequence whatever the template list holds. -/
theorem warmupSets_floor_spec (weight : ℚ) (setTemplates : List SetTemplate)
    (h : weight ≤ 85) : CalculateWarmupSets weight setTemplates = [] := by
  simp [CalculateWarmupSets, h]

/-- Witness for C3 at weight exactly 85 with a nonempty template list. -/
theorem warmupSets_floor_spec_witness :
    (85 : ℚ) ≤ 85 ∧ CalculateWarmupSets 85 greyskullWarmupTemplates = [] :=
  ⟨le_refl _, warmupSets_floor_spec 85 greyskullWarmupTemplates (le_refl _)⟩

/-- C5: the working-set generator rounds the weight once, emits one set per
template carrying that one shared rounded weight, the template reps and the
template kind unchanged, with 1-based order; the empty template list yields
the empty sequence and no minimum-weight floor is applied. -/
theorem workingSets_spec (weight : ℚ) (setTemplates : List SetTemplate) :
    (CalculateWorkingSets weight setTemplates).length = setTemplates.length ∧
    (∀ (j : Nat) (tpl : SetTemplate), setTemplates[j]? = some tpl →
      (CalculateWorkingSets weight setTemplates)[j]? =
        some { Weight := RoundDown2_5 weight
               TargetReps := tpl.Reps
               ActualReps := 0
               «Type» := tpl.«Type»
               Order := (j : Int) + 1 }) ∧
    CalculateWorkingSets weight [] = [] := by
  refine ⟨workingLoop_length _ _ 0, fun j tpl h => ?_, rfl⟩
  simpa using workingLoop_get? (RoundDown2_5 weight) setTemplates 0 j tpl h

/-- Witness for C5 at weight 45 (below the warmup floor: no floor applies
to working sets) and one template. -/
theorem workingSets_spec_witness :
    [exTplWorking][0]? = some exTplWorking ∧
    (CalculateWorkingSets 45 [exTplWorking])[0]? =
      some { Weight := RoundDown2_5 45
             TargetReps := exTplWorking.Reps
             ActualReps := 0
             «Type» := exTplWorking.«Type»
             Order := ((0 : Nat) : Int) + 1 } :=
  ⟨rfl, (workingSets_spec 45 [exTplWorking]).2.1 0 exTplWorking rfl⟩

/-- C9: every set emitted by either generator carries a weight that is an
exact integer multiple of 2.5, the fixed bar weight 45 included. -/
theorem setWeights_multiple_spec (weight : ℚ) (tpls : List SetTemplate) (s : Set)
    (h : s ∈ CalculateWarmupSets weight tpls ∨ s ∈ CalculateWorkingSets weight tpls) :
    ∃ k : ℤ, s.Weight = (k : ℚ) * 2.5 := by
  rcases h with h | h
  · unfold CalculateWarmupSets at h
    by_cases hw : weight ≤ 85
    · rw [if_pos hw] at h
      simp at h
    · rw [if_neg hw] at h
      rcases mem_warmupLoop_weight weight tpls 0 s h with h45 | ⟨x, hx⟩
      · exact ⟨18, by rw [h45]; norm_num⟩
      · rw [hx]
        exact roundDown_multiple x
  · unfold CalculateWorkingSets at h
    rw [mem_workingLoop_weight (RoundDown2_5 weight) tpls 0 s h]
    exact roundDown_multiple weight

/-- Witness for C9: the empty-bar warmup set at weight 100. -/
theorem setWeights_multiple_spec_witness :
    (barSet ∈ CalculateWarmupSets 100 [barTpl] ∨ barSet ∈ CalculateWorkingSets 100 [barTpl]) ∧
    ∃ k : ℤ, barSet.Weight = (k : ℚ) * 2.5 :=
  ⟨Or.inl (by norm_num [CalculateWarmupSets, warmupLoop, barTpl, barSet]),
   setWeights_multiple_spec 100 [barTpl] barSet
     (Or.inl (by norm_num [CalculateWarmupSets, warmupLoop, barTpl, barSet]))⟩

/-- C4 refuted as stated: at working weight 100 on a template of working
kind with negative percentage, the emitted set has the template kind (not
warmup kind) and weight 45 (not the rounded product, which would be -50). -/
theorem warmupSets_gen_counterexample :
    CalculateWarmupSets 100 [negTpl] =
      [{ Weight := 45, TargetReps := 5, ActualReps := 0, «Type» := WorkingSet, Order := 1 }] ∧
    WorkingSet ≠ WarmupSet ∧
    (45 : ℚ) ≠ RoundDown2_5 (100 * (-(1 / 2 : ℚ))) := by
  refine ⟨?_, by decide, ?_⟩
  · norm_num [CalculateWarmupSets, warmupLoop, negTpl]
  · norm_num [RoundDown2_5]

/-- C4 (amended): above weight 85 the warmup generator emits one set per
template in order; the j-th set carries the template reps, the template
kind, 1-based order, and weight 45 when the percentage is not positive,
else the rounded product; on the GreyskullLP protocol at 97.5 the weights
are exactly [45, 52.5, 67.5, 82.5]. -/
theorem warmupSets_gen_spec (weight : ℚ) (setTemplates : List SetTemplate)
    (h : 85 < weight) :
    (CalculateWarmupSets weight setTemplates).length = setTemplates.length ∧
    (∀ (j : Nat) (tpl : SetTemplate), setTemplates[j]? = some tpl →
      (CalculateWarmupSets weight setTemplates)[j]? =
        some { Weight := if tpl.WeightPercentage > 0 then
                 RoundDown2_5 (weight * tpl.WeightPercentage) else 45
               TargetReps := tpl.Reps
               ActualReps := 0
               «Type» := tpl.«Type»
               Order := (j : Int) + 1 }) ∧
    (CalculateWarmupSets (97.5 : ℚ) greyskullWarmupTemplates).map (fun s => s.Weight) =
      [45, 52.5, 67.5, 82.5] := by
  have hne : ¬ (weight ≤ 85) := not_le.mpr h
  refine ⟨?_, fun j tpl hj => ?_, ?_⟩
  · simp [CalculateWarmupSets, hne, warmupLoop_length]
  · simp only [CalculateWarmupSets, if_neg hne]
    simpa using warmupLoop_get? weight setTemplates 0 j tpl hj
  · norm_num [CalculateWarmupSets, warmupLoop, greyskullWarmupTemplates, RoundDown2_5]

/-- Witness for the amended C4 at weight 97.5 on the GreyskullLP protocol. -/
theorem warmupSets_gen_spec_witness :
    (85 : ℚ) < 97.5 ∧
    (CalculateWarmupSets (97.5 : ℚ) greyskullWarmupTemplates).length =
      greyskullWarmupTemplates.length :=
  ⟨by norm_num, (warmupSets_gen_spec 97.5 greyskullWarmupTemplates (by norm_num)).1⟩

/-- C1: CalculateNewWeight rounds down the raw weight chosen by priority:
deload below 5 reps, double progression at or above the threshold, normal
progression otherwise; 5 reps is normal progression whenever the threshold
exceeds 5, the threshold itself is double progression, and the three
reference examples evaluate as stated. -/
theorem calculateNewWeight_spec (currentWeight : ℚ) (amrapReps : Int)
    (baseIncrement : ℚ) (rules : ProgressionRules)
    (hw : 0 ≤ currentWeight) (hr : 0 ≤ amrapReps) :
    CalculateNewWeight currentWeight amrapReps baseIncrement rules =
      RoundDown2_5 (if amrapReps < 5 then currentWeight * rules.DeloadPercentage
        else if rules.DoubleThreshold ≤ amrapReps then currentWeight + 2 * baseIncrement
        else currentWeight + baseIncrement) ∧
    (5 < rules.DoubleThreshold →
      CalculateNewWeight currentWeight 5 baseIncrement rules =
        RoundDown2_5 (currentWeight + baseIncrement)) ∧
    (5 ≤ rules.DoubleThreshold →
      CalculateNewWeight currentWeight rules.DoubleThreshold baseIncrement rules =
        RoundDown2_5 (currentWeight + 2 * baseIncrement)) ∧
    CalculateNewWeight 95 3 2.5 greyskullRules = 85 ∧
    CalculateNewWeight 95 6 2.5 greyskullRules = 97.5 ∧
    CalculateNewWeight 95 12 2.5 greyskullRules = 100 := by
  refine ⟨?_, fun h5 => ?_, fun h5 => ?_, ?_, ?_, ?_⟩
  · unfold CalculateNewWeight
    split_ifs <;> ring_nf
  · unfold CalculateNewWeight
    have h1 : ¬ ((5 : Int) < 5) := by omega
    have h2 : ¬ ((5 : Int) ≥ rules.DoubleThreshold) := by omega
    simp [h1, h2]
  · unfold CalculateNewWeight
    have h1 : ¬ (rules.DoubleThreshold < 5) := by omega
    simp [h1, ge_iff_le, le_refl]
    ring_nf
  · norm_num [CalculateNewWeight, greyskullRules, RoundDown2_5]
  · norm_num [CalculateNewWeight, greyskullRules, RoundDown2_5]
  · norm_num [CalculateNewWeight, greyskullRules, RoundDown2_5]

/-- Witness for C1 at the deload reference example. -/
theorem calculateNewWeight_spec_witness :
    (0 : ℚ) ≤ 95 ∧ (0 : Int) ≤ 3 ∧ CalculateNewWeight 95 3 2.5 greyskullRules = 85 :=
  ⟨by norm_num, by norm_num,
   (calculateNewWeight_spec 95 3 2.5 greyskullRules (by norm_num) (by norm_num)).2.2.2.1⟩

/-- C6: for positive current day and positive cycle length, GetWorkoutDay is
1-based modular cycling, always within 1..totalDays, never 0, with the three
reference examples. -/
theorem getWorkoutDay_spec (currentDay totalDays : Int)
    (hc : 0 < currentDay) (ht : 0 < totalDays) :
    GetWorkoutDay currentDay totalDays = (currentDay - 1) % totalDays + 1 ∧
    1 ≤ GetWorkoutDay currentDay totalDays ∧
    GetWorkoutDay currentDay totalDays ≤ totalDays ∧
    GetWorkoutDay currentDay totalDays ≠ 0 ∧
    GetWorkoutDay 7 6 = 1 ∧ GetWorkoutDay 6 6 = 6 ∧ GetWorkoutDay 100 6 = 4 := by
  have heq := getWorkoutDay_eq currentDay totalDays hc ht
  have h0 : 0 ≤ (currentDay - 1) % totalDays := Int.emod_nonneg _ (by omega)
  have h1 : (currentDay - 1) % totalDays < totalDays := Int.emod_lt_of_pos _ ht
  exact ⟨heq, by omega, by omega, by omega, by decide, by decide, by decide⟩

/-- Witness for C6 at the wrap-around example day 7 of 6. -/
theorem getWorkoutDay_spec_witness :
    (0 : Int) < 7 ∧ (0 : Int) < 6 ∧ GetWorkoutDay 7 6 = (7 - 1) % 6 + 1 :=
  ⟨by decide, by decide, (getWorkoutDay_spec 7 6 (by decide) (by decide)).1⟩

/-- C2 (amended): for a completed workout naming each lift at most once,
CalculateProgression succeeds exactly when every exercised lift has an
AMRAP set, a progression rule and a current weight; on success, lifts
outside the workout keep their prior weight and every exercised lift gets
CalculateNewWeight of its AMRAP actual reps; each error constructor points
at an exercised lift with the matching missing reference. -/
theorem calculateProgression_spec (workout : Workout) (cw : LiftName → Option ℚ)
    (rules : ProgressionRules)
    (hnd : (workout.Exercises.map Lift.LiftName).Nodup) :
    ((∃ m, CalculateProgression workout cw rules = .ok m) ↔
      ∀ lift ∈ workout.Exercises, (GetAMRAPReps lift).isSome = true ∧
        (rules.IncreaseRules lift.LiftName).isSome = true ∧
        (cw lift.LiftName).isSome = true) ∧
    (∀ m, CalculateProgression workout cw rules = .ok m →
      (∀ l, l ∉ workout.Exercises.map Lift.LiftName → m l = cw l) ∧
      ∀ lift ∈ workout.Exercises, ∃ reps inc w0,
        GetAMRAPReps lift = some reps ∧ rules.IncreaseRules lift.LiftName = some inc ∧
        cw lift.LiftName = some w0 ∧
        m lift.LiftName = some (CalculateNewWeight w0 reps inc rules)) ∧
    (∀ e, CalculateProgression workout cw rules = .error e →
      (∀ l, e = .noAMRAP l →
        ∃ lift ∈ workout.Exercises, lift.LiftName = l ∧ GetAMRAPReps lift = none) ∧
      (∀ l, e = .noRule l →
        ∃ lift ∈ workout.Exercises, lift.LiftName = l ∧ rules.IncreaseRules l = none) ∧
      (∀ l, e = .noWeight l →
        ∃ lift ∈ workout.Exercises, lift.LiftName = l ∧ cw l = none)) ∧
    (∀ lift reps inc w0, lift ∈ workout.Exercises → GetAMRAPReps lift = some reps →
      rules.IncreaseRules lift.LiftName = some inc → cw lift.LiftName = some w0 →
      (∀ lift2 ∈ workout.Exercises, (GetAMRAPReps lift2).isSome = true ∧
        (rules.IncreaseRules lift2.LiftName).isSome = true ∧
        (cw lift2.LiftName).isSome = true) →
      progLookup (CalculateProgression workout cw rules) lift.LiftName =
        some (some (CalculateNewWeight w0 reps inc rules))) := by
  refine ⟨progressionLoop_ok_iff cw rules workout.Exercises cw,
    fun m hm => ⟨fun l hl => progressionLoop_not_mem cw rules workout.Exercises cw m l hl hm,
      progressionLoop_mem cw rules workout.Exercises cw m hnd hm⟩,
    fun e he => progressionLoop_error cw rules workout.Exercises cw e he,
    ?_⟩
  intro lift reps inc w0 hmem hA hR hW hall
  rcases (progressionLoop_ok_iff cw rules workout.Exercises cw).mpr hall with ⟨m, hm⟩
  rcases progressionLoop_mem cw rules workout.Exercises cw m hnd hm lift hmem with
    ⟨r, i, w, h1, h2, h3, h4⟩
  rw [hA] at h1
  rw [hR] at h2
  rw [hW] at h3
  obtain rfl := Option.some.inj h1
  obtain rfl := Option.some.inj h2
  obtain rfl := Option.some.inj h3
  have hres : progLookup (CalculateProgression workout cw rules) lift.LiftName =
      some (m lift.LiftName) := by
    unfold CalculateProgression
    rw [hm]
    rfl
  rw [hres, h4]

/-- Witness for C2: the overhead press at 95 with 8 AMRAP reps progresses to
CalculateNewWeight 95 8 2.5, the bench press weight staying untouched. -/
theorem calculateProgression_spec_witness :
    progLookup (CalculateProgression exWorkout exCW greyskullRules) exLift.LiftName =
      some (some (CalculateNewWeight 95 8 2.5 greyskullRules)) :=
  (calculateProgression_spec exWorkout exCW greyskullRules
      (by simp [exWorkout, exLift])).2.2.2 exLift 8 2.5 95
    (by simp [exWorkout])
    rfl rfl rfl
    (by
      intro lift2 h2
      simp only [exWorkout, List.mem_singleton] at h2
      subst h2
      exact ⟨rfl, rfl, rfl⟩)

/-- C2 refuted as stated: a workout naming the squat twice with different
AMRAP reps; the returned entry reflects the last occurrence (105), not the
CalculateNewWeight value of the first occurrence (90). -/
theorem calculateProgression_counterexample :
    dupLift1 ∈ dupWorkout.Exercises ∧
    GetAMRAPReps dupLift1 = some 3 ∧
    dupCW dupLift1.LiftName = some 100 ∧
    greyskullRules.IncreaseRules dupLift1.LiftName = some 5 ∧
    CalculateNewWeight 100 3 5 greyskullRules = 90 ∧
    progLookup (CalculateProgression dupWorkout dupCW greyskullRules) dupLift1.LiftName =
      some (some 105) ∧
    (some (105 : ℚ) : Option ℚ) ≠ some (90 : ℚ) := by
  refine ⟨by simp [dupWorkout], rfl, rfl, rfl, ?_, ?_, by norm_num⟩
  · norm_num [CalculateNewWeight, greyskullRules, RoundDown2_5]
  · have h6 : CalculateNewWeight 100 6 5 greyskullRules = 105 := by
      norm_num [CalculateNewWeight, greyskullRules, RoundDown2_5]
    have hR : greyskullRules.IncreaseRules "Squat" = some 5 := rfl
    simp [CalculateProgression, progressionLoop, progLookup, dupWorkout, dupLift1, dupLift2,
      dupCW, GetAMRAPReps, Squat, hR, h6]

/-- C8: CalculateNextWorkout errors exactly on: no current program selected,
an unresolvable program reference, or a template lift with no tracked
current weight; on success every lift carries its warmup sets followed by
the working sets renumbered to continue after them, so the whole set list
is numbered 1, 2, 3, ... in sequence. -/
theorem calculateNextWorkout_spec (user : User) (program : Program)
    (hlen : program.Workouts ≠ [])
    (hday : ∀ up, user.Programs user.CurrentProgram = some up → 0 < up.CurrentDay) :
    (CalculateNextWorkout user program).isSome = true ∧
    (CalculateNextWorkout user program = some (.error .noCurrentProgram) ↔
      user.CurrentProgram = 0) ∧
    (CalculateNextWorkout user program = some (.error .programNotFound) ↔
      (user.CurrentProgram ≠ 0 ∧ user.Programs user.CurrentProgram = none)) ∧
    (∀ up, user.Programs user.CurrentProgram = some up → user.CurrentProgram ≠ 0 →
      ((∃ w, CalculateNextWorkout user program = some (.ok w)) ↔
        ∀ lt ∈ (resolvedTemplate program up).Lifts,
          (up.CurrentWeights lt.LiftName).isSome = true) ∧
      (∀ l, CalculateNextWorkout user program = some (.error (.weightNotFound l)) →
        ∃ lt ∈ (resolvedTemplate program up).Lifts,
          lt.LiftName = l ∧ up.CurrentWeights l = none) ∧
      (∀ w, CalculateNextWorkout user program = some (.ok w) →
        w.UserProgramID = up.ID ∧
        w.Day = GetWorkoutDay up.CurrentDay (program.Workouts.length : Int) ∧
        ∀ lift ∈ w.Exercises, ∃ lt ∈ (resolvedTemplate program up).Lifts, ∃ cwt,
          up.CurrentWeights lt.LiftName = some cwt ∧ lift.LiftName = lt.LiftName ∧
          lift.Sets = CalculateWarmupSets cwt lt.WarmupSets ++
            renumberFrom ((CalculateWarmupSets cwt lt.WarmupSets).length : Int)
              (CalculateWorkingSets cwt lt.WorkingSets) ∧
          ∀ (j : Nat) (s : Set), lift.Sets[j]? = some s → s.Order = (j : Int) + 1)) := by
  by_cases h0 : user.CurrentProgram = 0
  · have hcalc : CalculateNextWorkout user program = some (.error .noCurrentProgram) := by
      unfold CalculateNextWorkout
      rw [if_pos h0]
    refine ⟨by rw [hcalc]; rfl, by simp [hcalc, h0], by simp [hcalc, h0], ?_⟩
    intro up hup hne
    exact absurd h0 hne
  · cases hup : user.Programs user.CurrentProgram with
    | none =>
      have hcalc : CalculateNextWorkout user program = some (.error .programNotFound) := by
        unfold CalculateNextWorkout
        rw [if_neg h0, hup]
      refine ⟨by rw [hcalc]; rfl, by simp [hcalc, h0], by simp [hcalc, h0, hup], ?_⟩
      intro up hup2 hne
      exact Option.noConfusion hup2
    | some up =>
      obtain ⟨tmpl, hsome, hres, hcalc⟩ :=
        calculateNextWorkout_eq user program up h0 hup (hday up hup) hlen
      cases hloop : nextWorkoutLoop up tmpl.Lifts with
      | error e =>
        simp only [hloop] at hcalc
        rcases nextWorkoutLoop_error up tmpl.Lifts e hloop with ⟨l, rfl, lt, hmem, hname, hweight⟩
        refine ⟨by rw [hcalc]; rfl, by simp [hcalc, h0], by simp [hcalc, h0, hup], ?_⟩
        intro up2 hup2 hne
        obtain rfl := Option.some.inj hup2
        rw [hres]
        refine ⟨?_, ?_, ?_⟩
        · rw [hcalc]
          constructor
          · rintro ⟨w, hw⟩
            simp at hw
          · intro hall
            have hthis := hall lt hmem
            rw [hname, hweight] at hthis
            simp at hthis
        · intro l2 hl2
          rw [hcalc] at hl2
          simp only [Option.some.injEq, Except.error.injEq, WorkoutError.weightNotFound.injEq] at hl2
          subst hl2
          exact ⟨lt, hmem, hname, hweight⟩
        · intro w hw
          rw [hcalc] at hw
          simp at hw
      | ok exercises =>
        simp only [hloop] at hcalc
        have hall : ∀ lt ∈ tmpl.Lifts, (up.CurrentWeights lt.LiftName).isSome = true :=
          (nextWorkoutLoop_ok_iff up tmpl.Lifts).mp ⟨exercises, hloop⟩
        refine ⟨by rw [hcalc]; rfl, by simp [hcalc, h0], by simp [hcalc, h0, hup], ?_⟩
        intro up2 hup2 hne
        obtain rfl := Option.some.inj hup2
        rw [hres]
        refine ⟨⟨fun _ => hall, fun _ => ⟨_, hcalc⟩⟩, ?_, ?_⟩
        · intro l hl
          rw [hcalc] at hl
          simp at hl
        · intro w hw
          rw [hcalc] at hw
          simp only [Option.some.injEq, Except.ok.injEq] at hw
          subst hw
          refine ⟨rfl, rfl, ?_⟩
          intro lift hmem2
          rcases nextWorkoutLoop_ok_mem up tmpl.Lifts exercises hloop lift hmem2 with
            ⟨lt, h1, cwt, h2, h3, h4⟩
          refine ⟨lt, h1, cwt, h2, h3, h4, ?_⟩
          intro j s hs
          rw [h4] at hs
          exact combined_order cwt lt.WarmupSets lt.WorkingSets j s hs

/-- Witness for C8: a one-day program with a tracked weight produces a
workout without error. -/
theorem calculateNextWorkout_spec_witness :
    exProgram.Workouts ≠ [] ∧ (CalculateNextWorkout exUser exProgram).isSome = true :=
  ⟨by simp [exProgram], (calculateNextWorkout_spec exUser exProgram (by simp [exProgram])
    (by
      intro up h
      simp [exUser] at h
      subst h
      decide)).1⟩

/-- C10: over the explicit heap, CalculateProgression never writes the map
at the currentWeights reference, and on success it returns the freshly
allocated reference, distinct from the argument reference; an error result
carries no map reference at all. -/
theorem progression_frame_spec (workout : Workout) (cwRef : Nat)
    (rules : ProgressionRules) (h : Heap) (href : cwRef < h.next) :
    ((CalculateProgressionHeap workout cwRef rules h).1).maps cwRef = h.maps cwRef ∧
    (∀ r, (CalculateProgressionHeap workout cwRef rules h).2 = .ok r →
      r = h.next ∧ r ≠ cwRef) ∧
    (∀ e r, (CalculateProgressionHeap workout cwRef rules h).2 = .error e →
      (CalculateProgressionHeap workout cwRef rules h).2 ≠ .ok r) := by
  have hne : cwRef ≠ h.next := by omega
  have hframe := progressionHeapLoop_frame cwRef h.next rules workout.Exercises
    { maps := fun r => if r = h.next then h.maps cwRef else h.maps r, next := h.next + 1 }
    cwRef hne
  rcases hloop : progressionHeapLoop cwRef h.next rules workout.Exercises
      { maps := fun r => if r = h.next then h.maps cwRef else h.maps r, next := h.next + 1 }
    with ⟨h2, res⟩
  rw [hloop] at hframe
  simp only [if_neg hne] at hframe
  cases res with
  | ok u =>
    simp only [CalculateProgressionHeap, hloop]
    refine ⟨hframe, ?_, ?_⟩
    · intro r hr
      simp only [Except.ok.injEq] at hr
      subst hr
      exact ⟨rfl, fun hc => hne hc.symm⟩
    · intro e r he
      simp at he
  | error e2 =>
    simp only [CalculateProgressionHeap, hloop]
    refine ⟨hframe, ?_, ?_⟩
    · intro r hr
      simp at hr
    · intro e r _ hc
      simp at hc

/-- Witness for C10 at a singleton heap and the workout of one lift. -/
theorem progression_frame_spec_witness :
    0 < exHeap.next ∧
    ((CalculateProgressionHeap exWorkout 0 greyskullRules exHeap).1).maps 0 = exHeap.maps 0 :=
  ⟨by decide, (progression_frame_spec exWorkout 0 greyskullRules exHeap (by decide)).1⟩

end Greyskull
